import Mathlib

/-!
Shallow embedding of the nakdan integration's cache/retry/lookup core
(custom_components/nakdan/nakdan_api.py, services.py, const.py).

Modelling conventions:
* Python's insertion-ordered dict self._cache is an association list
  `List (String × CacheEntry)` kept in insertion order, with dict-style
  lookup/overwrite/delete on keys.
* Readings of time.time() are supplied by callers as explicit `Int`
  parameters: `now` for cache-validity decisions and the insertion
  timestamp, `elapsed` for the measured response time.
* The HTTP transport is a function from the attempt index to
  `Option (List Token)`: `none` models any failed attempt (non-200
  status, timeout, or connection error — the code treats all three
  identically), `some toks` a 200 response whose JSON body decoded to
  the token array `toks`.
* hashlib.sha256(content).hexdigest() is not modelled; the pre-hash
  string content = genre + "_" + text is used directly as the cache
  key, which is faithful up to SHA-256 collisions.
* Exceptions (NakdanInvalidGenreError) are modelled as an explicit
  outcome constructor.
-/

namespace Nakdan

/-- const.py GENRES: the fixed allowed genre set. -/
def GENRES : List String := ["modern", "rabbinic", "modernpoetry", "medievalpoetry"]

/-- const.py MAX_TEXT_LENGTH. -/
def MAX_TEXT_LENGTH : Nat := 10000

/-- const.py DEFAULT_MAX_RETRIES. -/
def DEFAULT_MAX_RETRIES : Nat := 1

/-- const.py DEFAULT_CACHE_DURATION (seconds). -/
def DEFAULT_CACHE_DURATION : Int := 3600

/-- const.py DEFAULT_MAX_CACHE_SIZE. -/
def DEFAULT_MAX_CACHE_SIZE : Nat := 1000

/-- const.py DEFAULT_ENABLE_CACHE_TIMEOUT. -/
def DEFAULT_ENABLE_CACHE_TIMEOUT : Bool := false

/-- One token of the remote service's JSON response array: `sep` is the
truthiness of the "sep" field, `word` the "word" field (defaulting to ""
as in item.get("word", "")), `options` the candidate list. -/
structure Token where
  sep : Bool
  word : String
  options : List String
deriving DecidableEq, Repr

/-- The result object built by get_nikud: keys "data" and
"response_time" of the Python dict. -/
structure ResultObj where
  data : String
  response_time : Int
deriving DecidableEq, Repr

/-- One cache slot: the pair (result_obj, timestamp) stored in
self._cache. -/
structure CacheEntry where
  value : ResultObj
  timestamp : Int
deriving DecidableEq, Repr

/-- The insertion-ordered cache dict. -/
abbrev Cache := List (String × CacheEntry)

/-- The mutable singleton state of NakdanAPI: the cache dict plus the
three live configuration fields. -/
structure APIState where
  cache : Cache
  enable_cache_timeout : Bool
  cache_duration : Int
  max_cache_size : Nat
deriving DecidableEq, Repr

/-- Dict lookup self._cache[key] (first, and in well-formed states only,
binding for the key). -/
def lookupKey : Cache → String → Option CacheEntry
  | [], _ => none
  | p :: rest, k => if p.1 = k then some p.2 else lookupKey rest k

/-- Dict assignment self._cache[key] = entry: overwrite in place if the
key is present, otherwise append (insertion order). -/
def putEntry : Cache → String → CacheEntry → Cache
  | [], k, e => [(k, e)]
  | p :: rest, k, e => if p.1 = k then (k, e) :: rest else p :: putEntry rest k e

/-- Dict deletion del self._cache[key]. -/
def eraseKey (c : Cache) (k : String) : Cache :=
  c.filter (fun p => !decide (p.1 = k))

/-- nakdan_api.py _get_cache_key, up to the final SHA-256 hex digest:
the local variable content = genre + "_" + text whose hash is the
stored key. -/
def cache_key_content (text genre : String) : String :=
  genre ++ "_" ++ text

/-- nakdan_api.py _is_cache_valid. -/
def is_cache_valid (st : APIState) (timestamp now : Int) : Bool :=
  if !st.enable_cache_timeout then
    true
  else
    decide (now - timestamp < st.cache_duration)

/-- nakdan_api.py _cleanup_expired_cache: delete every entry with
now - timestamp >= cache_duration; no-op when the timeout is disabled. -/
def cleanup_expired_cache (st : APIState) (now : Int) : APIState :=
  if !st.enable_cache_timeout then
    st
  else
    { st with cache := st.cache.filter (fun p => !decide (st.cache_duration ≤ now - p.2.timestamp)) }

/-- Stable insertion step of the timestamp sort: an element is placed
before the first element whose timestamp is not smaller, matching the
stability of Python's sorted(keys, key=timestamp). -/
def insertByTimestamp (p : String × CacheEntry) : Cache → Cache
  | [] => [p]
  | q :: rest =>
    if q.2.timestamp < p.2.timestamp then q :: insertByTimestamp p rest
    else p :: q :: rest

/-- Python's sorted(self._cache.keys(), key=lambda k: self._cache[k][1])
as a stable sort of the association list by timestamp. -/
def sortByTimestamp : Cache → Cache
  | [] => []
  | p :: rest => insertByTimestamp p (sortByTimestamp rest)

/-- nakdan_api.py _trim_cache_to_size: if over the configured maximum,
delete the oldest-by-timestamp keys until exactly max_cache_size
entries remain. -/
def trim_cache_to_size (st : APIState) : APIState :=
  if st.cache.length ≤ st.max_cache_size then
    st
  else
    let entries_to_remove := st.cache.length - st.max_cache_size
    let oldest_keys := ((sortByTimestamp st.cache).take entries_to_remove).map Prod.fst
    { st with cache := st.cache.filter (fun p => !oldest_keys.contains p.1) }

/-- The keys removed by _trim_cache_by_percentage: the first
max(1, int(max_cache_size * percentage)) keys of the timestamp-sorted
cache. The percentage is passed as the exact fraction num/den (the sole
caller passes 0.1, i.e. 1/10); int(n * 0.1) computed in double
precision equals the exact floor n / 10 for every n below 2^53 (the
product of an exact integer with the double nearest 0.1 rounds back to
a value with the same floor), so the truncation is modelled as
exact-rational floor, which for a natural n and fraction num/den is
the Nat division n * num / den. -/
def trim_percentage_oldest_keys (st : APIState) (num den : Nat) : List String :=
  let entries_to_remove := max 1 (st.max_cache_size * num / den)
  ((sortByTimestamp st.cache).take entries_to_remove).map Prod.fst

/-- nakdan_api.py _trim_cache_by_percentage: remove
max(1, int(max_cache_size * percentage)) oldest-by-timestamp entries,
the percentage passed as the exact fraction num/den. -/
def trim_cache_by_percentage (st : APIState) (num den : Nat) : APIState :=
  let oldest_keys := trim_percentage_oldest_keys st num den
  { st with cache := st.cache.filter (fun p => !oldest_keys.contains p.1) }

/-- First block of nakdan_api.py update_config: write the supplied
enable_cache_timeout value; when the timeout was disabled and is being
enabled, clean up expired entries immediately. -/
def update_config_timeout_step (st : APIState) (now : Int) : Option Bool → APIState
  | none => st
  | some b =>
    let old := st.enable_cache_timeout
    let st' := { st with enable_cache_timeout := b }
    if old = false ∧ b = true then cleanup_expired_cache st' now else st'

/-- Second block of update_config: write the supplied cache_duration;
when the duration shrank, clean up expired entries immediately. -/
def update_config_duration_step (st : APIState) (now : Int) : Option Int → APIState
  | none => st
  | some d =>
    let old := st.cache_duration
    let st' := { st with cache_duration := d }
    if d < old then cleanup_expired_cache st' now else st'

/-- Third block of update_config: write the supplied max_cache_size;
when it shrank below the current cache size, trim immediately. -/
def update_config_size_step (st : APIState) : Option Nat → APIState
  | none => st
  | some m =>
    let old := st.max_cache_size
    let st' := { st with max_cache_size := m }
    if m < old ∧ m < st'.cache.length then trim_cache_to_size st' else st'

/-- nakdan_api.py update_config: the three blocks run in order; each
supplied field is written and its side effect (cleanup on enabling the
timeout, cleanup on shortening the duration, trim on shrinking below
the current size) runs synchronously; omitted (None) fields are
untouched. The hass handle is not modelled. -/
def update_config (st : APIState) (now : Int) (enable_cache_timeout : Option Bool)
    (cache_duration : Option Int) (max_cache_size : Option Nat) : APIState :=
  update_config_size_step
    (update_config_duration_step (update_config_timeout_step st now enable_cache_timeout) now
      cache_duration)
    max_cache_size

/-- nakdan_api.py clear_cache: empty the dict, return the prior count. -/
def clear_cache (st : APIState) : APIState × Nat :=
  ({ st with cache := [] }, st.cache.length)

/-- Removal of every '|' marker: Python options[0].replace("|", "")
with a one-character pattern and empty replacement deletes every
occurrence of the character. -/
def stripMarkers (s : String) : String :=
  String.mk (s.data.filter (fun c => c != '|'))

/-- nakdan_api.py build_nikud_text: the empty response yields "";
otherwise result_parts collects, per token, the separator's word, the
first option with markers stripped, or the fallback word, and the parts
are joined. -/
def build_nikud_text (service_response : List Token) : String :=
  if service_response.isEmpty then
    ""
  else
    let result_parts :=
      service_response.foldl
        (fun acc item =>
          if item.sep then
            acc ++ [item.word]
          else
            match item.options with
            | [] => acc ++ [item.word]
            | o :: _ => acc ++ [stripMarkers o])
        []
    String.join result_parts

/-- The per-token output the specification describes for the decoder:
a separator's surface word verbatim, else the first candidate with
every '|' removed, else the undiacritized surface word. -/
def decodeToken (item : Token) : String :=
  if item.sep then item.word
  else
    match item.options with
    | [] => item.word
    | o :: _ => stripMarkers o

/-- nakdan_api.py _make_request_with_retry backoff: 0.5 * 2 ** attempt
seconds. -/
def backoff_wait (attempt : Nat) : ℚ :=
  (1 / 2) * 2 ^ attempt

/-- Observable outcome of one _make_request_with_retry run: the decoded
body of the first 200 response (or none), the number of transport
calls made, and the recorded backoff sleeps in order. -/
structure RetryResult where
  result : Option (List Token)
  calls : Nat
  sleeps : List ℚ
deriving DecidableEq, Repr

/-- The retry loop of _make_request_with_retry from a given attempt
index with a given number of retries still allowed: one transport call
per attempt; success is terminal; after a failed attempt that is not
the last (remaining > 0, i.e. attempt < max_retries), record the sleep
backoff_wait attempt and continue with the next attempt. -/
def retryAux (transport : Nat → Option (List Token)) (attempt : Nat) : Nat → RetryResult
  | 0 =>
    match transport attempt with
    | some r => { result := some r, calls := 1, sleeps := [] }
    | none => { result := none, calls := 1, sleeps := [] }
  | rem + 1 =>
    match transport attempt with
    | some r => { result := some r, calls := 1, sleeps := [] }
    | none =>
      let r' := retryAux transport (attempt + 1) rem
      { result := r'.result, calls := r'.calls + 1, sleeps := backoff_wait attempt :: r'.sleeps }

/-- nakdan_api.py _make_request_with_retry: attempts 0..max_retries
inclusive. The outbound payload is fixed for the whole call, so it is
captured inside the transport function. -/
def make_request_with_retry (transport : Nat → Option (List Token)) (max_retries : Nat) : RetryResult :=
  retryAux transport 0 max_retries

/-- Outcome of one get_nikud call: the raised NakdanInvalidGenreError,
the explicit None return after exhausted retries, or a result object. -/
inductive NikudOutcome where
  | invalidGenre
  | noResult
  | ok (r : ResultObj)
deriving DecidableEq, Repr

/-- Observable effect of one get_nikud call: its outcome, the state it
leaves behind, and the transport activity it caused. -/
structure NikudCall where
  outcome : NikudOutcome
  state : APIState
  transport_calls : Nat
  sleeps : List ℚ
deriving DecidableEq, Repr

/-- The cache-maintenance prefix of get_nikud's miss path: the
capacity-triggered percentage trim (when the cache is at or over the
configured maximum) followed by the sampled expiry cleanup (when the
timeout is enabled and the size is a positive multiple of 10). -/
def miss_maintenance (st : APIState) (now : Int) : APIState :=
  let st1 := if st.max_cache_size ≤ st.cache.length then trim_cache_by_percentage st 1 10 else st
  if st1.enable_cache_timeout = true ∧ 0 < st1.cache.length ∧ st1.cache.length % 10 = 0 then
    cleanup_expired_cache st1 now
  else st1

/-- The cache-miss continuation of get_nikud (the code after the cache
check): capacity-triggered percentage trim, sampled expiry cleanup,
the retried request, and on success the decode and cache write. -/
def get_nikud_miss (st : APIState) (transport : Nat → Option (List Token)) (now elapsed : Int)
    (cache_key : String) (max_retries : Nat) : NikudCall :=
  let st2 := miss_maintenance st now
  let response := make_request_with_retry transport max_retries
  match response.result with
  | none =>
    { outcome := .noResult, state := st2,
      transport_calls := response.calls, sleeps := response.sleeps }
  | some api_result =>
    let result_obj : ResultObj := { data := build_nikud_text api_result, response_time := elapsed }
    { outcome := .ok result_obj,
      state := { st2 with cache := putEntry st2.cache cache_key ⟨result_obj, now⟩ },
      transport_calls := response.calls, sleeps := response.sleeps }

/-- nakdan_api.py get_nikud: genre validation, cache read with lazy
expiry, then the miss path. -/
def get_nikud (st : APIState) (transport : Nat → Option (List Token)) (now elapsed : Int)
    (text genre : String) (max_retries : Nat) : NikudCall :=
  if genre ∉ GENRES then
    { outcome := .invalidGenre, state := st, transport_calls := 0, sleeps := [] }
  else
    let cache_key := cache_key_content text genre
    match lookupKey st.cache cache_key with
    | some e =>
      if is_cache_valid st e.timestamp now then
        { outcome := .ok e.value, state := st, transport_calls := 0, sleeps := [] }
      else
        get_nikud_miss { st with cache := eraseKey st.cache cache_key } transport now elapsed
          cache_key max_retries
    | none => get_nikud_miss st transport now elapsed cache_key max_retries

/-- Outcome of the get_nikud service handler: the structured response's
success flag with either the error string or the payload fields. -/
inductive ServiceOutcome where
  | failure (error : String)
  | success (original_text nikud_text : String) (response_time : Int)
deriving DecidableEq, Repr

/-- Observable effect of one handle_get_nikud service call. Sensor
updates are external plumbing and not modelled. -/
structure ServiceCall where
  outcome : ServiceOutcome
  state : APIState
  transport_calls : Nat
deriving DecidableEq, Repr

/-- Python str.strip(): remove leading and trailing whitespace
characters (Lean's Char.isWhitespace covers the ASCII whitespace that
str.strip removes; Python additionally strips rarer Unicode spaces). -/
def strip (s : String) : String :=
  String.mk (((s.data.dropWhile Char.isWhitespace).reverse.dropWhile Char.isWhitespace).reverse)

/-- services.py handle_get_nikud: empty/whitespace and length
validation before the api.get_nikud call; exceptions (the invalid-genre
error) surface as a failure response with the stringified error. -/
def handle_get_nikud (st : APIState) (transport : Nat → Option (List Token)) (now elapsed : Int)
    (text genre : String) : ServiceCall :=
  if text.isEmpty || (strip text).isEmpty then
    { outcome := .failure "Text cannot be empty", state := st, transport_calls := 0 }
  else if MAX_TEXT_LENGTH < text.length then
    { outcome := .failure "Text too long (maximum 10000 characters)", state := st, transport_calls := 0 }
  else
    let call := get_nikud st transport now elapsed text genre DEFAULT_MAX_RETRIES
    match call.outcome with
    | .invalidGenre =>
      { outcome := .failure ("Invalid genre: " ++ genre), state := call.state,
        transport_calls := call.transport_calls }
    | .noResult =>
      { outcome := .failure "Failed to get nikud from service", state := call.state,
        transport_calls := call.transport_calls }
    | .ok r =>
      { outcome := .success text r.data r.response_time, state := call.state,
        transport_calls := call.transport_calls }

/-! ### Basic cache-dict lemmas -/

theorem lookupKey_putEntry_self (c : Cache) (k : String) (e : CacheEntry) :
    lookupKey (putEntry c k e) k = some e := by
  induction c with
  | nil => simp [putEntry, lookupKey]
  | cons p rest ih =>
    by_cases h : p.1 = k
    · simp [putEntry, lookupKey, h]
    · simp [putEntry, lookupKey, h, ih]

theorem lookupKey_eq_none_iff (c : Cache) (k : String) :
    lookupKey c k = none ↔ ∀ p ∈ c, p.1 ≠ k := by
  induction c with
  | nil => simp [lookupKey]
  | cons p rest ih =>
    by_cases h : p.1 = k
    · simp [lookupKey, h]
    · simp [lookupKey, h, ih]

theorem lookupKey_filter_none (c : Cache) (k : String) (q : String × CacheEntry → Bool)
    (h : lookupKey c k = none) : lookupKey (c.filter q) k = none := by
  rw [lookupKey_eq_none_iff] at h ⊢
  intro p hp
  exact h p (List.mem_filter.mp hp).1

theorem lookupKey_eraseKey_self (c : Cache) (k : String) :
    lookupKey (eraseKey c k) k = none := by
  rw [lookupKey_eq_none_iff]
  intro p hp
  have := (List.mem_filter.mp hp).2
  simpa using this

theorem length_putEntry_le (c : Cache) (k : String) (e : CacheEntry) :
    (putEntry c k e).length ≤ c.length + 1 := by
  induction c with
  | nil => simp [putEntry]
  | cons p rest ih =>
    by_cases h : p.1 = k
    · simp [putEntry, h]
    · simp only [putEntry, h, if_false, List.length_cons]
      omega

theorem length_filter_lt {α : Type} (l : List α) (q : α → Bool) (x : α)
    (hx : x ∈ l) (hqx : q x = false) : (l.filter q).length < l.length := by
  induction l with
  | nil => cases hx
  | cons a rest ih =>
    rcases List.mem_cons.mp hx with rfl | hx'
    · simp only [List.filter_cons, hqx, List.length_cons]
      exact Nat.lt_succ_of_le (List.length_filter_le q rest)
    · by_cases ha : q a
      · simpa [List.filter_cons, ha] using Nat.succ_lt_succ (ih hx')
      · simp only [List.filter_cons, Bool.not_eq_true] at ha
        simp only [List.filter_cons, ha, List.length_cons]
        exact Nat.lt_succ_of_lt (ih hx')

/-! ### Timestamp-sort lemmas -/

theorem perm_insertByTimestamp (p : String × CacheEntry) (l : Cache) :
    (insertByTimestamp p l).Perm (p :: l) := by
  induction l with
  | nil => simp [insertByTimestamp]
  | cons q rest ih =>
    by_cases h : q.2.timestamp < p.2.timestamp
    · simp only [insertByTimestamp, h, if_true]
      exact ((ih.cons q).trans (List.Perm.swap p q rest))
    · simp [insertByTimestamp, h]

theorem perm_sortByTimestamp (l : Cache) : (sortByTimestamp l).Perm l := by
  induction l with
  | nil => simp [sortByTimestamp]
  | cons p rest ih =>
    exact (perm_insertByTimestamp p (sortByTimestamp rest)).trans (ih.cons p)

theorem length_sortByTimestamp (l : Cache) : (sortByTimestamp l).length = l.length :=
  (perm_sortByTimestamp l).length_eq

theorem mem_insertByTimestamp {x p : String × CacheEntry} {l : Cache} :
    x ∈ insertByTimestamp p l ↔ x = p ∨ x ∈ l := by
  rw [(perm_insertByTimestamp p l).mem_iff]
  simp

theorem sorted_insertByTimestamp (p : String × CacheEntry) (l : Cache)
    (h : l.Pairwise (fun a b => a.2.timestamp ≤ b.2.timestamp)) :
    (insertByTimestamp p l).Pairwise (fun a b => a.2.timestamp ≤ b.2.timestamp) := by
  induction l with
  | nil => simp [insertByTimestamp]
  | cons q rest ih =>
    rcases List.pairwise_cons.mp h with ⟨hq, hrest⟩
    by_cases hlt : q.2.timestamp < p.2.timestamp
    · simp only [insertByTimestamp, hlt, if_true]
      refine List.pairwise_cons.mpr ⟨?_, ih hrest⟩
      intro x hx
      rcases mem_insertByTimestamp.mp hx with rfl | hx'
      · exact le_of_lt hlt
      · exact hq x hx'
    · simp only [insertByTimestamp, hlt, if_false]
      refine List.pairwise_cons.mpr ⟨?_, h⟩
      intro x hx
      rcases List.mem_cons.mp hx with rfl | hx'
      · exact le_of_not_lt hlt
      · exact le_trans (le_of_not_lt hlt) (hq x hx')

theorem sorted_sortByTimestamp (l : Cache) :
    (sortByTimestamp l).Pairwise (fun a b => a.2.timestamp ≤ b.2.timestamp) := by
  induction l with
  | nil => simp [sortByTimestamp]
  | cons p rest ih => exact sorted_insertByTimestamp p _ ih

theorem insertByTimestamp_front (p : String × CacheEntry) (l : Cache)
    (h : ∀ q ∈ l, p.2.timestamp ≤ q.2.timestamp) :
    insertByTimestamp p l = p :: l := by
  cases l with
  | nil => rfl
  | cons q rest =>
    have : ¬ q.2.timestamp < p.2.timestamp :=
      not_lt_of_le (h q (List.mem_cons_self q rest))
    simp [insertByTimestamp, this]

theorem sortByTimestamp_eq_self (l : Cache)
    (h : l.Pairwise (fun a b => a.2.timestamp ≤ b.2.timestamp)) :
    sortByTimestamp l = l := by
  induction l with
  | nil => rfl
  | cons p rest ih =>
    rcases List.pairwise_cons.mp h with ⟨hp, hrest⟩
    simp only [sortByTimestamp, ih hrest]
    exact insertByTimestamp_front p rest hp

/-! ### Eviction lemmas -/

theorem filter_not_taken_keys_length (c : Cache) (n : Nat)
    (hnd : (c.map Prod.fst).Nodup) :
    (c.filter
        (fun p => !(((sortByTimestamp c).take n).map Prod.fst).contains p.1)).length
      = c.length - n := by
  set s := sortByTimestamp c with hs
  set q : String × CacheEntry → Bool :=
    fun p => !((s.take n).map Prod.fst).contains p.1 with hq
  have hperm : c.Perm s := (perm_sortByTimestamp c).symm
  have hndS : (s.map Prod.fst).Nodup := (hperm.map Prod.fst).nodup_iff.mp hnd
  have hsplit : s = s.take n ++ s.drop n := (List.take_append_drop n s).symm
  have hfl : (c.filter q).Perm (s.filter q) := hperm.filter q
  rw [hfl.length_eq]
  rw [hsplit, List.filter_append]
  have h1 : (s.take n).filter q = [] := by
    rw [List.filter_eq_nil_iff]
    intro p hp
    simp only [hq, Bool.not_eq_true', Bool.not_eq_false]
    simpa using List.mem_map_of_mem Prod.fst hp
  have h2 : (s.drop n).filter q = s.drop n := by
    rw [List.filter_eq_self]
    intro p hp
    simp only [hq, Bool.not_eq_true']
    have hmem : p.1 ∈ (s.drop n).map Prod.fst := List.mem_map_of_mem Prod.fst hp
    have hdisj : ((s.take n).map Prod.fst).Disjoint ((s.drop n).map Prod.fst) := by
      have := hndS
      rw [hsplit, List.map_append, List.nodup_append] at this
      exact this.2.2
    have hnotin : p.1 ∉ (s.take n).map Prod.fst := fun hin => hdisj hin hmem
    simpa using hnotin
  rw [h1, h2, List.nil_append, List.length_drop, hs, length_sortByTimestamp]

theorem mem_take_of_removed (c : Cache) (n : Nat) (hnd : (c.map Prod.fst).Nodup)
    (p : String × CacheEntry) (hp : p ∈ c)
    (hkey : p.1 ∈ ((sortByTimestamp c).take n).map Prod.fst) :
    p ∈ (sortByTimestamp c).take n := by
  set s := sortByTimestamp c with hs
  have hperm : c.Perm s := (perm_sortByTimestamp c).symm
  have hndS : (s.map Prod.fst).Nodup := (hperm.map Prod.fst).nodup_iff.mp hnd
  have hpS : p ∈ s := hperm.mem_iff.mp hp
  have hsplit : s = s.take n ++ s.drop n := (List.take_append_drop n s).symm
  rcases List.mem_append.mp (hsplit ▸ hpS) with h | h
  · exact h
  · exfalso
    have hdisj : ((s.take n).map Prod.fst).Disjoint ((s.drop n).map Prod.fst) := by
      have := hndS
      rw [hsplit, List.map_append, List.nodup_append] at this
      exact this.2.2
    exact hdisj hkey (List.mem_map_of_mem Prod.fst h)

theorem mem_drop_of_kept (c : Cache) (n : Nat)
    (p : String × CacheEntry) (hp : p ∈ c)
    (hkey : p.1 ∉ ((sortByTimestamp c).take n).map Prod.fst) :
    p ∈ (sortByTimestamp c).drop n := by
  set s := sortByTimestamp c with hs
  have hperm : c.Perm s := (perm_sortByTimestamp c).symm
  have hpS : p ∈ s := hperm.mem_iff.mp hp
  have hsplit : s = s.take n ++ s.drop n := (List.take_append_drop n s).symm
  rcases List.mem_append.mp (hsplit ▸ hpS) with h | h
  · exact absurd (List.mem_map_of_mem Prod.fst h) hkey
  · exact h

theorem take_le_drop_timestamps (c : Cache) (n : Nat)
    (p : String × CacheEntry) (hp : p ∈ (sortByTimestamp c).take n)
    (q : String × CacheEntry) (hq : q ∈ (sortByTimestamp c).drop n) :
    p.2.timestamp ≤ q.2.timestamp := by
  have hsorted := sorted_sortByTimestamp c
  rw [← List.take_append_drop n (sortByTimestamp c), List.pairwise_append] at hsorted
  exact hsorted.2.2 p hp q hq

theorem head_mem_take (l : List (String × CacheEntry)) (n : Nat)
    (hne : l ≠ []) (hn : 1 ≤ n) : ∃ x ∈ l.take n, x ∈ l := by
  cases l with
  | nil => exact absurd rfl hne
  | cons a rest =>
    cases n with
    | zero => omega
    | succ m =>
      exact ⟨a, by simp [List.take], List.mem_cons_self a rest⟩

theorem trim_cache_by_percentage_length_lt (st : APIState) (num den : Nat)
    (hne : st.cache ≠ []) :
    (trim_cache_by_percentage st num den).cache.length < st.cache.length := by
  have hsne : sortByTimestamp st.cache ≠ [] := by
    intro h
    have := length_sortByTimestamp st.cache
    rw [h] at this
    exact hne (List.eq_nil_of_length_eq_zero this.symm)
  obtain ⟨x, hxtake, hxs⟩ :=
    head_mem_take (sortByTimestamp st.cache)
      (max 1 (st.max_cache_size * num / den)) hsne (le_max_left _ _)
  have hxc : x ∈ st.cache := (perm_sortByTimestamp st.cache).mem_iff.mp hxs
  have hxkey : x.1 ∈ (trim_percentage_oldest_keys st num den) :=
    List.mem_map_of_mem Prod.fst hxtake
  have hqx : (fun p => !(trim_percentage_oldest_keys st num den).contains p.1) x = false := by
    simp [hxkey]
  exact length_filter_lt st.cache _ x hxc hqx

theorem cleanup_expired_cache_length_le (st : APIState) (now : Int) :
    (cleanup_expired_cache st now).cache.length ≤ st.cache.length := by
  unfold cleanup_expired_cache
  split
  · exact le_refl _
  · exact List.length_filter_le _ _

theorem cleanup_expired_cache_fields (st : APIState) (now : Int) :
    (cleanup_expired_cache st now).enable_cache_timeout = st.enable_cache_timeout ∧
    (cleanup_expired_cache st now).cache_duration = st.cache_duration ∧
    (cleanup_expired_cache st now).max_cache_size = st.max_cache_size := by
  unfold cleanup_expired_cache
  split <;> exact ⟨rfl, rfl, rfl⟩

/-! ### get_nikud path lemmas -/

theorem trim_cache_by_percentage_cache (st : APIState) (num den : Nat) :
    (trim_cache_by_percentage st num den).cache
      = st.cache.filter (fun p => !(trim_percentage_oldest_keys st num den).contains p.1) := rfl

theorem cleanup_expired_cache_lookup_none (st : APIState) (now : Int) (key : String)
    (h : lookupKey st.cache key = none) :
    lookupKey (cleanup_expired_cache st now).cache key = none := by
  unfold cleanup_expired_cache
  split
  · exact h
  · exact lookupKey_filter_none _ _ _ h

theorem miss_maintenance_length_lt (st : APIState) (now : Int)
    (hmax : 1 ≤ st.max_cache_size) (hlen : st.cache.length ≤ st.max_cache_size) :
    (miss_maintenance st now).cache.length < st.max_cache_size := by
  have hstep2 : ∀ s : APIState, s.cache.length < st.max_cache_size →
      (if s.enable_cache_timeout = true ∧ 0 < s.cache.length ∧ s.cache.length % 10 = 0
        then cleanup_expired_cache s now else s).cache.length < st.max_cache_size := by
    intro s hs
    split
    · exact lt_of_le_of_lt (cleanup_expired_cache_length_le s now) hs
    · exact hs
  show ((fun s : APIState =>
      if s.enable_cache_timeout = true ∧ 0 < s.cache.length ∧ s.cache.length % 10 = 0
        then cleanup_expired_cache s now else s)
    (if st.max_cache_size ≤ st.cache.length then trim_cache_by_percentage st 1 10 else st)).cache.length
      < st.max_cache_size
  apply hstep2
  split
  · rename_i hcap
    have hne : st.cache ≠ [] := by
      intro h
      rw [h] at hcap
      simp at hcap
      omega
    exact lt_of_lt_of_le (trim_cache_by_percentage_length_lt st 1 10 hne) hlen
  · rename_i hcap
    exact lt_of_not_le hcap

theorem miss_maintenance_lookup_none (st : APIState) (now : Int) (key : String)
    (hkey : lookupKey st.cache key = none) :
    lookupKey (miss_maintenance st now).cache key = none := by
  have hstep2 : ∀ s : APIState, lookupKey s.cache key = none →
      lookupKey (if s.enable_cache_timeout = true ∧ 0 < s.cache.length ∧ s.cache.length % 10 = 0
        then cleanup_expired_cache s now else s).cache key = none := by
    intro s hs
    split
    · exact cleanup_expired_cache_lookup_none s now key hs
    · exact hs
  show lookupKey ((fun s : APIState =>
      if s.enable_cache_timeout = true ∧ 0 < s.cache.length ∧ s.cache.length % 10 = 0
        then cleanup_expired_cache s now else s)
    (if st.max_cache_size ≤ st.cache.length then trim_cache_by_percentage st 1 10 else st)).cache
      key = none
  apply hstep2
  split
  · rw [trim_cache_by_percentage_cache]
    exact lookupKey_filter_none _ _ _ hkey
  · exact hkey

theorem get_nikud_miss_eq_none (st : APIState) (tp : Nat → Option (List Token))
    (now elapsed : Int) (key : String) (mr : Nat)
    (hres : (make_request_with_retry tp mr).result = none) :
    get_nikud_miss st tp now elapsed key mr
      = { outcome := .noResult, state := miss_maintenance st now,
          transport_calls := (make_request_with_retry tp mr).calls,
          sleeps := (make_request_with_retry tp mr).sleeps } := by
  unfold get_nikud_miss
  simp only [hres]

theorem get_nikud_miss_eq_some (st : APIState) (tp : Nat → Option (List Token))
    (now elapsed : Int) (key : String) (mr : Nat) (api_result : List Token)
    (hres : (make_request_with_retry tp mr).result = some api_result) :
    get_nikud_miss st tp now elapsed key mr
      = { outcome := .ok ⟨build_nikud_text api_result, elapsed⟩,
          state := { miss_maintenance st now with
                     cache := putEntry (miss_maintenance st now).cache key
                       ⟨⟨build_nikud_text api_result, elapsed⟩, now⟩ },
          transport_calls := (make_request_with_retry tp mr).calls,
          sleeps := (make_request_with_retry tp mr).sleeps } := by
  unfold get_nikud_miss
  simp only [hres]

theorem get_nikud_miss_length (st : APIState) (tp : Nat → Option (List Token))
    (now elapsed : Int) (key : String) (mr : Nat)
    (hmax : 1 ≤ st.max_cache_size) (hlen : st.cache.length ≤ st.max_cache_size) :
    (get_nikud_miss st tp now elapsed key mr).state.cache.length ≤ st.max_cache_size := by
  have h2 := miss_maintenance_length_lt st now hmax hlen
  cases hres : (make_request_with_retry tp mr).result with
  | none =>
    rw [get_nikud_miss_eq_none st tp now elapsed key mr hres]
    exact le_of_lt h2
  | some api_result =>
    rw [get_nikud_miss_eq_some st tp now elapsed key mr api_result hres]
    calc (putEntry (miss_maintenance st now).cache key
            ⟨⟨build_nikud_text api_result, elapsed⟩, now⟩).length
        ≤ (miss_maintenance st now).cache.length + 1 := length_putEntry_le _ _ _
      _ ≤ st.max_cache_size := by omega

/-- The cache-hit path of get_nikud: a present, valid entry is returned
as is, with no state change and no transport activity. -/
theorem get_nikud_hit (st : APIState) (tp : Nat → Option (List Token)) (now elapsed : Int)
    (text genre : String) (mr : Nat) (e : CacheEntry)
    (hg : genre ∈ GENRES)
    (hl : lookupKey st.cache (cache_key_content text genre) = some e)
    (hv : is_cache_valid st e.timestamp now = true) :
    get_nikud st tp now elapsed text genre mr
      = { outcome := .ok e.value, state := st, transport_calls := 0, sleeps := [] } := by
  unfold get_nikud
  simp [hg, hl, hv]

/-- The invalid-genre path of get_nikud: immediate error, no state
change, no transport activity. -/
theorem get_nikud_invalid (st : APIState) (tp : Nat → Option (List Token)) (now elapsed : Int)
    (text genre : String) (mr : Nat) (hg : genre ∉ GENRES) :
    get_nikud st tp now elapsed text genre mr
      = { outcome := .invalidGenre, state := st, transport_calls := 0, sleeps := [] } := by
  unfold get_nikud
  simp [hg]

/-- The lazy-expiry path of get_nikud: a present but invalid entry is
deleted and the miss path runs on the reduced state. -/
theorem get_nikud_expired (st : APIState) (tp : Nat → Option (List Token)) (now elapsed : Int)
    (text genre : String) (mr : Nat) (e : CacheEntry)
    (hg : genre ∈ GENRES)
    (hl : lookupKey st.cache (cache_key_content text genre) = some e)
    (hv : is_cache_valid st e.timestamp now = false) :
    get_nikud st tp now elapsed text genre mr
      = get_nikud_miss { st with cache := eraseKey st.cache (cache_key_content text genre) }
          tp now elapsed (cache_key_content text genre) mr := by
  unfold get_nikud
  simp [hg, hl, hv]

/-- The plain-miss path of get_nikud: an absent key goes straight to
the miss path. -/
theorem get_nikud_absent (st : APIState) (tp : Nat → Option (List Token)) (now elapsed : Int)
    (text genre : String) (mr : Nat)
    (hg : genre ∈ GENRES)
    (hl : lookupKey st.cache (cache_key_content text genre) = none) :
    get_nikud st tp now elapsed text genre mr
      = get_nikud_miss st tp now elapsed (cache_key_content text genre) mr := by
  unfold get_nikud
  simp [hg, hl]

/-- On a successful miss, the decoded result object is stored under the
request's key with the current timestamp. -/
theorem get_nikud_miss_ok_lookup (st : APIState) (tp : Nat → Option (List Token))
    (now elapsed : Int) (key : String) (mr : Nat) (r : ResultObj)
    (h : (get_nikud_miss st tp now elapsed key mr).outcome = .ok r) :
    lookupKey (get_nikud_miss st tp now elapsed key mr).state.cache key = some ⟨r, now⟩ := by
  cases hres : (make_request_with_retry tp mr).result with
  | none =>
    rw [get_nikud_miss_eq_none st tp now elapsed key mr hres] at h
    exact NikudOutcome.noConfusion h
  | some api_result =>
    rw [get_nikud_miss_eq_some st tp now elapsed key mr api_result hres] at h ⊢
    simp only [NikudOutcome.ok.injEq] at h
    subst h
    exact lookupKey_putEntry_self _ key _

/-- Any get_nikud call whose outcome is a result leaves that result
cached under the request's key. -/
theorem get_nikud_ok_lookup (st : APIState) (tp : Nat → Option (List Token))
    (now elapsed : Int) (text genre : String) (mr : Nat) (r : ResultObj)
    (h : (get_nikud st tp now elapsed text genre mr).outcome = .ok r) :
    ∃ ts, lookupKey (get_nikud st tp now elapsed text genre mr).state.cache
        (cache_key_content text genre) = some ⟨r, ts⟩ := by
  by_cases hg : genre ∈ GENRES
  · cases hl : lookupKey st.cache (cache_key_content text genre) with
    | some e =>
      by_cases hv : is_cache_valid st e.timestamp now = true
      · rw [get_nikud_hit st tp now elapsed text genre mr e hg hl hv] at h ⊢
        simp only [NikudOutcome.ok.injEq] at h
        exact ⟨e.timestamp, by rw [hl, ← h]⟩
      · have hv' : is_cache_valid st e.timestamp now = false := Bool.eq_false_iff.mpr hv
        rw [get_nikud_expired st tp now elapsed text genre mr e hg hl hv'] at h ⊢
        exact ⟨now, get_nikud_miss_ok_lookup _ _ _ _ _ _ _ h⟩
    | none =>
      rw [get_nikud_absent st tp now elapsed text genre mr hg hl] at h ⊢
      exact ⟨now, get_nikud_miss_ok_lookup _ _ _ _ _ _ _ h⟩
  · rw [get_nikud_invalid st tp now elapsed text genre mr hg] at h
    exact NikudOutcome.noConfusion h

/-- When every attempt fails and the key was absent when the miss path
began, the outcome is the explicit no-result value, the transport was
called once per attempt, and the key is still absent from the cache. -/
theorem get_nikud_miss_none (st : APIState) (tp : Nat → Option (List Token))
    (now elapsed : Int) (key : String) (mr : Nat)
    (hres : (make_request_with_retry tp mr).result = none)
    (hkey : lookupKey st.cache key = none) :
    get_nikud_miss st tp now elapsed key mr
      = { outcome := .noResult, state := miss_maintenance st now,
          transport_calls := (make_request_with_retry tp mr).calls,
          sleeps := (make_request_with_retry tp mr).sleeps } ∧
    lookupKey (get_nikud_miss st tp now elapsed key mr).state.cache key = none := by
  have heq := get_nikud_miss_eq_none st tp now elapsed key mr hres
  refine ⟨heq, ?_⟩
  rw [heq]
  exact miss_maintenance_lookup_none st now key hkey

/-! ### Retry-loop lemmas -/

theorem retryAux_all_fail (tp : Nat → Option (List Token)) (rem a : Nat)
    (hf : ∀ i, i ≤ a + rem → tp i = none) :
    retryAux tp a rem
      = { result := none, calls := rem + 1,
          sleeps := (List.range' a rem).map backoff_wait } := by
  induction rem generalizing a with
  | zero =>
    unfold retryAux
    rw [hf a (by omega)]
    simp
  | succ m ih =>
    unfold retryAux
    rw [hf a (by omega)]
    simp only [ih (a + 1) (fun i hi => hf i (by omega))]
    rw [List.range'_succ]
    simp

theorem retryAux_first_success (tp : Nat → Option (List Token)) (k : Nat) (r : List Token)
    (hk : ∀ i, i < k → tp i = none) (hs : tp k = some r) :
    ∀ rem a, a ≤ k → k ≤ a + rem →
      retryAux tp a rem
        = { result := some r, calls := k - a + 1,
            sleeps := (List.range' a (k - a)).map backoff_wait } := by
  intro rem
  induction rem with
  | zero =>
    intro a h1 h2
    have : a = k := by omega
    subst this
    unfold retryAux
    rw [hs]
    simp
  | succ m ih =>
    intro a h1 h2
    by_cases hak : a = k
    · subst hak
      unfold retryAux
      rw [hs]
      simp
    · have halt : a < k := lt_of_le_of_ne h1 hak
      unfold retryAux
      rw [hk a halt]
      simp only [ih (a + 1) (by omega) (by omega)]
      have hsub : k - a = (k - (a + 1)) + 1 := by omega
      rw [hsub, List.range'_succ]
      simp

/-! ### update_config / trim_cache_to_size lemmas -/

theorem trim_cache_to_size_fields (st : APIState) :
    (trim_cache_to_size st).enable_cache_timeout = st.enable_cache_timeout ∧
    (trim_cache_to_size st).cache_duration = st.cache_duration ∧
    (trim_cache_to_size st).max_cache_size = st.max_cache_size := by
  unfold trim_cache_to_size
  split <;> exact ⟨rfl, rfl, rfl⟩

theorem update_config_timeout_step_fields (st : APIState) (now : Int) (ect : Option Bool) :
    (update_config_timeout_step st now ect).cache_duration = st.cache_duration ∧
    (update_config_timeout_step st now ect).max_cache_size = st.max_cache_size := by
  cases ect with
  | none => exact ⟨rfl, rfl⟩
  | some b =>
    simp only [update_config_timeout_step]
    split
    · exact ⟨(cleanup_expired_cache_fields _ now).2.1, (cleanup_expired_cache_fields _ now).2.2⟩
    · exact ⟨rfl, rfl⟩

theorem update_config_duration_step_fields (st : APIState) (now : Int) (cd : Option Int) :
    (update_config_duration_step st now cd).enable_cache_timeout = st.enable_cache_timeout ∧
    (update_config_duration_step st now cd).max_cache_size = st.max_cache_size := by
  cases cd with
  | none => exact ⟨rfl, rfl⟩
  | some d =>
    simp only [update_config_duration_step]
    split
    · exact ⟨(cleanup_expired_cache_fields _ now).1, (cleanup_expired_cache_fields _ now).2.2⟩
    · exact ⟨rfl, rfl⟩

theorem update_config_size_step_fields (st : APIState) (mcs : Option Nat) :
    (update_config_size_step st mcs).enable_cache_timeout = st.enable_cache_timeout ∧
    (update_config_size_step st mcs).cache_duration = st.cache_duration := by
  cases mcs with
  | none => exact ⟨rfl, rfl⟩
  | some m =>
    simp only [update_config_size_step]
    split
    · exact ⟨(trim_cache_to_size_fields _).1, (trim_cache_to_size_fields _).2.1⟩
    · exact ⟨rfl, rfl⟩

theorem update_config_duration_step_none (st : APIState) (now : Int) :
    update_config_duration_step st now none = st := rfl

theorem update_config_size_step_none (st : APIState) :
    update_config_size_step st none = st := rfl

theorem filter_not_first_keys (c : Cache) (k : Nat)
    (hnd : (c.map Prod.fst).Nodup) :
    c.filter (fun p => !((c.take k).map Prod.fst).contains p.1) = c.drop k := by
  set ks := (c.take k).map Prod.fst with hks
  have hsplit : c = c.take k ++ c.drop k := (List.take_append_drop k c).symm
  conv_lhs => rw [hsplit]
  rw [List.filter_append]
  have h1 : (c.take k).filter (fun p => !ks.contains p.1) = [] := by
    rw [List.filter_eq_nil_iff]
    intro p hp
    simp only [Bool.not_eq_true, Bool.not_eq_false]
    have : p.1 ∈ ks := hks ▸ List.mem_map_of_mem Prod.fst hp
    simpa using this
  have h2 : (c.drop k).filter (fun p => !ks.contains p.1) = c.drop k := by
    rw [List.filter_eq_self]
    intro p hp
    have hdisj : ((c.take k).map Prod.fst).Disjoint ((c.drop k).map Prod.fst) := by
      have := hnd
      rw [hsplit, List.map_append, List.nodup_append] at this
      exact this.2.2
    have : p.1 ∉ ks := fun hin => hdisj (hks ▸ hin) (List.mem_map_of_mem Prod.fst hp)
    simpa using this
  rw [h1, h2, List.nil_append]

theorem trim_cache_to_size_cache_of_over (st : APIState)
    (hover : st.max_cache_size < st.cache.length) :
    (trim_cache_to_size st).cache
      = st.cache.filter (fun p =>
          !(((sortByTimestamp st.cache).take
              (st.cache.length - st.max_cache_size)).map Prod.fst).contains p.1) := by
  unfold trim_cache_to_size
  rw [if_neg (not_le_of_lt hover)]

theorem trim_cache_to_size_sorted (st : APIState)
    (hnd : (st.cache.map Prod.fst).Nodup)
    (hsorted : st.cache.Pairwise (fun a b => a.2.timestamp ≤ b.2.timestamp))
    (hover : st.max_cache_size < st.cache.length) :
    (trim_cache_to_size st).cache = st.cache.drop (st.cache.length - st.max_cache_size) := by
  rw [trim_cache_to_size_cache_of_over st hover, sortByTimestamp_eq_self st.cache hsorted]
  exact filter_not_first_keys st.cache _ hnd

/-! ### Decoder lemma -/

theorem build_nikud_text_foldl (l : List Token) (acc : List String) :
    l.foldl
      (fun acc item =>
        if item.sep then
          acc ++ [item.word]
        else
          match item.options with
          | [] => acc ++ [item.word]
          | o :: _ => acc ++ [stripMarkers o])
      acc
    = acc ++ l.map decodeToken := by
  induction l generalizing acc with
  | nil => simp
  | cons t rest ih =>
    simp only [List.foldl_cons, List.map_cons]
    rw [ih]
    have hstep : (if t.sep then acc ++ [t.word]
        else match t.options with
          | [] => acc ++ [t.word]
          | o :: _ => acc ++ [stripMarkers o]) = acc ++ [decodeToken t] := by
      unfold decodeToken
      by_cases hs : t.sep
      · simp [hs]
      · simp only [hs, if_false]
        cases t.options <;> simp
    rw [hstep, List.append_assoc]
    rfl

/-! ### Cache-key injectivity lemma -/

theorem append_underscore_inj (l1 : List Char) :
    ∀ (l2 t1 t2 : List Char), ('_' ∉ l1) → ('_' ∉ l2) →
    l1 ++ '_' :: t1 = l2 ++ '_' :: t2 → l1 = l2 ∧ t1 = t2 := by
  induction l1 with
  | nil =>
    intro l2 t1 t2 h1 h2 h
    cases l2 with
    | nil => simpa using h
    | cons b l2' =>
      simp only [List.nil_append, List.cons_append, List.cons.injEq] at h
      exact absurd (h.1 ▸ List.mem_cons_self b l2') h2
  | cons a l1' ih =>
    intro l2 t1 t2 h1 h2 h
    cases l2 with
    | nil =>
      simp only [List.cons_append, List.nil_append, List.cons.injEq] at h
      exact absurd (h.1 ▸ List.mem_cons_self a l1') h1
    | cons b l2' =>
      simp only [List.cons_append, List.cons.injEq] at h
      obtain ⟨hab, htail⟩ := h
      have h1' : '_' ∉ l1' := fun hm => h1 (List.mem_cons_of_mem a hm)
      have h2' : '_' ∉ l2' := fun hm => h2 (List.mem_cons_of_mem b hm)
      obtain ⟨hl, ht⟩ := ih l2' t1 t2 h1' h2' htail
      exact ⟨by rw [hab, hl], ht⟩

/-! ## Claim theorems -/

/-- C4: for every text and every genre outside the fixed 4-value
allowed set, get_nikud raises the invalid-genre condition: the outcome
is the error, the state (hence the cache) is unchanged, and the
transport is never invoked (zero transport calls, no sleeps). -/
theorem C4_invalid_genre (st : APIState) (tp : Nat → Option (List Token))
    (now elapsed : Int) (text genre : String) (mr : Nat) (hg : genre ∉ GENRES) :
    get_nikud st tp now elapsed text genre mr
      = { outcome := .invalidGenre, state := st, transport_calls := 0, sleeps := [] } :=
  get_nikud_invalid st tp now elapsed text genre mr hg

/-- Witness for C4 at the specification's example genre. -/
theorem C4_invalid_genre_witness :
    get_nikud
        { cache := [], enable_cache_timeout := false, cache_duration := 3600, max_cache_size := 1000 }
        (fun _ => none) 0 0 "shalom" "not-a-real-genre" 1
      = { outcome := .invalidGenre,
          state := { cache := [], enable_cache_timeout := false, cache_duration := 3600,
                     max_cache_size := 1000 },
          transport_calls := 0, sleeps := [] } :=
  C4_invalid_genre _ _ 0 0 "shalom" "not-a-real-genre" 1 (by decide)

/-- C6: for every input token sequence the decoder output equals the
concatenation, in input order with no filtering, of the per-token
outputs: a separator's surface word verbatim, the first candidate with
every '|' removed, or the undiacritized surface word when there are no
candidates; and the empty input decodes to the empty string. -/
theorem C6_decoder :
    (∀ resp : List Token, build_nikud_text resp = String.join (resp.map decodeToken)) ∧
    build_nikud_text [] = "" := by
  constructor
  · intro resp
    cases resp with
    | nil => rfl
    | cons t rest =>
      unfold build_nikud_text
      rw [if_neg (by simp)]
      rw [build_nikud_text_foldl (t :: rest) []]
      rw [List.nil_append]
  · rfl

/-- C7: with the cache timeout disabled, is_cache_valid is true
unconditionally (an entry inserted at T is still valid at T + 10000);
with it enabled, it is true exactly when now - insertedAt is below the
configured duration. -/
theorem C7_is_cache_valid (st : APIState) (ts now : Int) :
    (st.enable_cache_timeout = false → is_cache_valid st ts now = true) ∧
    (st.enable_cache_timeout = true →
      (is_cache_valid st ts now = true ↔ now - ts < st.cache_duration)) := by
  unfold is_cache_valid
  constructor
  · intro h
    simp [h]
  · intro h
    simp [h]

/-- Witness for C7: validity at T + 10000 with the timeout disabled,
and the exact boundary form with it enabled. -/
theorem C7_is_cache_valid_witness :
    is_cache_valid
      { cache := [], enable_cache_timeout := false, cache_duration := 3600, max_cache_size := 1000 }
      0 10000 = true ∧
    (is_cache_valid
      { cache := [], enable_cache_timeout := true, cache_duration := 3600, max_cache_size := 1000 }
      0 100 = true ↔ (100 : Int) - 0 < 3600) :=
  ⟨(C7_is_cache_valid _ 0 10000).1 rfl, (C7_is_cache_valid _ 0 100).2 rfl⟩

/-- C8: a lookup that hits a present, valid cache entry returns that
entry's value with no side effects at all: the whole state (cache
mapping, every entry, configuration) is unchanged and the transport is
not called. -/
theorem C8_cache_hit_pure (st : APIState) (tp : Nat → Option (List Token))
    (now elapsed : Int) (text genre : String) (mr : Nat) (e : CacheEntry)
    (hg : genre ∈ GENRES)
    (hl : lookupKey st.cache (cache_key_content text genre) = some e)
    (hv : is_cache_valid st e.timestamp now = true) :
    get_nikud st tp now elapsed text genre mr
      = { outcome := .ok e.value, state := st, transport_calls := 0, sleeps := [] } :=
  get_nikud_hit st tp now elapsed text genre mr e hg hl hv

/-- Witness for C8 on a one-entry cache. -/
theorem C8_cache_hit_pure_witness :
    get_nikud
        { cache := [("modern_ab", { value := { data := "ab", response_time := 3 }, timestamp := 50 })],
          enable_cache_timeout := false, cache_duration := 3600, max_cache_size := 1000 }
        (fun _ => none) 60 0 "ab" "modern" 1
      = { outcome := .ok { data := "ab", response_time := 3 },
          state := { cache := [("modern_ab",
                       { value := { data := "ab", response_time := 3 }, timestamp := 50 })],
                     enable_cache_timeout := false, cache_duration := 3600, max_cache_size := 1000 },
          transport_calls := 0, sleeps := [] } :=
  C8_cache_hit_pure _ _ 60 0 "ab" "modern" 1
    { value := { data := "ab", response_time := 3 }, timestamp := 50 }
    (by decide) (by decide) (by decide)

/-- C9: a service get_nikud request whose text is empty or whitespace
only, or longer than the fixed maximum of 10000 characters, returns a
failure outcome (an error string) with the state unchanged and zero
transport calls — the lookup is never reached. -/
theorem C9_input_validation (st : APIState) (tp : Nat → Option (List Token))
    (now elapsed : Int) (text genre : String)
    (h : (strip text).isEmpty = true ∨ MAX_TEXT_LENGTH < text.length) :
    (handle_get_nikud st tp now elapsed text genre).state = st ∧
    (handle_get_nikud st tp now elapsed text genre).transport_calls = 0 ∧
    ∃ err, (handle_get_nikud st tp now elapsed text genre).outcome = ServiceOutcome.failure err := by
  unfold handle_get_nikud
  by_cases h1 : (text.isEmpty || (strip text).isEmpty) = true
  · rw [if_pos h1]
    exact ⟨rfl, rfl, "Text cannot be empty", rfl⟩
  · have h2 : MAX_TEXT_LENGTH < text.length := by
      rcases h with hws | hlen
      · exact absurd (by rw [hws]; simp) h1
      · exact hlen
    rw [if_neg h1, if_pos h2]
    exact ⟨rfl, rfl, "Text too long (maximum 10000 characters)", rfl⟩

/-- Witness for C9 on whitespace-only input. -/
theorem C9_input_validation_witness :
    (handle_get_nikud
        { cache := [], enable_cache_timeout := false, cache_duration := 3600, max_cache_size := 1000 }
        (fun _ => some []) 0 0 "   " "modern").state
      = { cache := [], enable_cache_timeout := false, cache_duration := 3600, max_cache_size := 1000 } ∧
    (handle_get_nikud
        { cache := [], enable_cache_timeout := false, cache_duration := 3600, max_cache_size := 1000 }
        (fun _ => some []) 0 0 "   " "modern").transport_calls = 0 ∧
    ∃ err, (handle_get_nikud
        { cache := [], enable_cache_timeout := false, cache_duration := 3600, max_cache_size := 1000 }
        (fun _ => some []) 0 0 "   " "modern").outcome = ServiceOutcome.failure err :=
  C9_input_validation _ _ 0 0 "   " "modern" (Or.inl (by decide))

/-- C10: for allowed genres the pre-hash key strings are injective in
(genre, text): no allowed genre contains an underscore, so the first
underscore delimits the genre unambiguously and equal content strings
force equal genres and equal texts. -/
theorem C10_cache_key_content_inj (g g' t t' : String)
    (hg : g ∈ GENRES) (hg' : g' ∈ GENRES)
    (h : cache_key_content t g = cache_key_content t' g') : g = g' ∧ t = t' := by
  have hd : g.data ++ '_' :: t.data = g'.data ++ '_' :: t'.data := by
    have h2 := congrArg String.data h
    simp only [cache_key_content, String.data_append] at h2
    simpa [List.append_assoc] using h2
  have hu : '_' ∉ g.data := by
    simp only [GENRES, List.mem_cons, List.not_mem_nil, or_false] at hg
    rcases hg with rfl | rfl | rfl | rfl <;> decide
  have hu' : '_' ∉ g'.data := by
    simp only [GENRES, List.mem_cons, List.not_mem_nil, or_false] at hg'
    rcases hg' with rfl | rfl | rfl | rfl <;> decide
  obtain ⟨h1, h2⟩ := append_underscore_inj g.data g'.data t.data t'.data hu hu' hd
  exact ⟨String.ext h1, String.ext h2⟩

/-- Witness for C10. -/
theorem C10_cache_key_content_inj_witness :
    ("modern" : String) = "modern" ∧ ("shalom" : String) = "shalom" :=
  C10_cache_key_content_inj "modern" "modern" "shalom" "shalom" (by decide) (by decide) rfl

/-- C1: if a lookup for an allowed genre succeeds (outcome is a result,
which is then cached under the request's key), a second lookup for the
same (genre, text) on the resulting state — with no intervening clear,
expiry (the stored entry is still valid at the second call's time) or
eviction — returns the very same result object (hence identical text
output), leaves the state untouched, and performs zero transport
attempts. -/
theorem C1_second_lookup_cached (st : APIState) (tp tp' : Nat → Option (List Token))
    (now now' elapsed elapsed' : Int) (text genre : String) (mr mr' : Nat)
    (r : ResultObj) (e : CacheEntry)
    (hg : genre ∈ GENRES)
    (hok : (get_nikud st tp now elapsed text genre mr).outcome = .ok r)
    (hl : lookupKey (get_nikud st tp now elapsed text genre mr).state.cache
        (cache_key_content text genre) = some e)
    (hv : is_cache_valid (get_nikud st tp now elapsed text genre mr).state e.timestamp now' = true) :
    get_nikud (get_nikud st tp now elapsed text genre mr).state tp' now' elapsed' text genre mr'
      = { outcome := .ok r, state := (get_nikud st tp now elapsed text genre mr).state,
          transport_calls := 0, sleeps := [] } := by
  obtain ⟨ts, hts⟩ := get_nikud_ok_lookup st tp now elapsed text genre mr r hok
  rw [hl] at hts
  have hval : e.value = r := by
    rw [Option.some.inj hts]
  rw [get_nikud_hit (get_nikud st tp now elapsed text genre mr).state tp' now' elapsed'
      text genre mr' e hg hl hv, hval]

/-- Witness for C1: a miss-then-hit pair on an initially empty cache. -/
theorem C1_second_lookup_cached_witness :
    get_nikud
        (get_nikud
          { cache := [], enable_cache_timeout := false, cache_duration := 3600, max_cache_size := 1000 }
          (fun _ => some [{ sep := false, word := "ab", options := ["a|b"] }]) 100 7 "ab" "modern" 1).state
        (fun _ => none) 200 9 "ab" "modern" 1
      = { outcome := .ok { data := "ab", response_time := 7 },
          state := (get_nikud
            { cache := [], enable_cache_timeout := false, cache_duration := 3600, max_cache_size := 1000 }
            (fun _ => some [{ sep := false, word := "ab", options := ["a|b"] }]) 100 7 "ab" "modern" 1).state,
          transport_calls := 0, sleeps := [] } :=
  C1_second_lookup_cached _ _ _ 100 200 7 9 "ab" "modern" 1 1
    { data := "ab", response_time := 7 }
    { value := { data := "ab", response_time := 7 }, timestamp := 100 }
    (by decide) (by decide) (by decide) (by decide)

/-- C2: with a transport that fails the first k attempts and succeeds
on attempt k+1: when max_retries is at least k the retry executor
returns the result after exactly k+1 transport calls with recorded
backoff sleeps 0.5 * 2^i seconds for i = 0..k-1; when max_retries is
below k it makes exactly max_retries+1 calls and yields the explicit
no-result value (not a fault), the lookup outcome is NoResult, and
nothing is written to the cache under the request's key. -/
theorem C2_retry_backoff (k : Nat) (r : List Token) (mr : Nat) :
    (k ≤ mr →
      make_request_with_retry (fun i => if i < k then none else some r) mr
        = { result := some r, calls := k + 1, sleeps := (List.range k).map backoff_wait }) ∧
    (mr < k →
      make_request_with_retry (fun i => if i < k then none else some r) mr
        = { result := none, calls := mr + 1, sleeps := (List.range mr).map backoff_wait }) ∧
    (mr < k → ∀ (st : APIState) (now elapsed : Int) (text genre : String),
      genre ∈ GENRES →
      lookupKey st.cache (cache_key_content text genre) = none →
      (get_nikud st (fun i => if i < k then none else some r) now elapsed text genre mr).outcome
          = NikudOutcome.noResult ∧
      (get_nikud st (fun i => if i < k then none else some r) now elapsed text genre mr).transport_calls
          = mr + 1 ∧
      lookupKey
        (get_nikud st (fun i => if i < k then none else some r) now elapsed text genre mr).state.cache
        (cache_key_content text genre) = none) := by
  have hfail : ∀ mr', mr' < k →
      make_request_with_retry (fun i => if i < k then none else some r) mr'
        = { result := none, calls := mr' + 1, sleeps := (List.range mr').map backoff_wait } := by
    intro mr' hk
    have h := retryAux_all_fail (fun i => if i < k then none else some r) mr' 0
      (fun i hi => by simp only [if_pos (show i < k by omega)])
    rw [make_request_with_retry, h]
    simp [List.range_eq_range']
  refine ⟨?_, hfail mr, ?_⟩
  · intro hk
    have h := retryAux_first_success (fun i => if i < k then none else some r) k r
      (fun i hi => by simp [hi]) (by simp) mr 0 (Nat.zero_le k) (by omega)
    rw [make_request_with_retry, h]
    simp [List.range_eq_range']
  · intro hk st now elapsed text genre hg hkey
    have hres : (make_request_with_retry (fun i => if i < k then none else some r) mr).result
        = none := by
      rw [hfail mr hk]
    have habs := get_nikud_absent st (fun i => if i < k then none else some r)
      now elapsed text genre mr hg hkey
    obtain ⟨hmiss, hlook⟩ := get_nikud_miss_none st (fun i => if i < k then none else some r)
      now elapsed (cache_key_content text genre) mr hres hkey
    rw [habs]
    refine ⟨?_, ?_, hlook⟩
    · rw [hmiss]
    · rw [hmiss]
      show (make_request_with_retry (fun i => if i < k then none else some r) mr).calls = mr + 1
      rw [hfail mr hk]

/-- Witness for C2: k = 1 with max_retries 2 (success on the second
call) and max_retries 0 (exhaustion after one call, nothing cached). -/
theorem C2_retry_backoff_witness :
    (make_request_with_retry (fun i => if i < 1 then none else some []) 2
      = { result := some [], calls := 2, sleeps := (List.range 1).map backoff_wait }) ∧
    (make_request_with_retry (fun i => if i < 1 then none else some []) 0
      = { result := none, calls := 1, sleeps := (List.range 0).map backoff_wait }) ∧
    ((get_nikud
        { cache := [], enable_cache_timeout := false, cache_duration := 3600, max_cache_size := 1000 }
        (fun i => if i < 1 then none else some []) 0 0 "ab" "modern" 0).outcome
          = NikudOutcome.noResult ∧
     (get_nikud
        { cache := [], enable_cache_timeout := false, cache_duration := 3600, max_cache_size := 1000 }
        (fun i => if i < 1 then none else some []) 0 0 "ab" "modern" 0).transport_calls = 1 ∧
     lookupKey
       (get_nikud
         { cache := [], enable_cache_timeout := false, cache_duration := 3600, max_cache_size := 1000 }
         (fun i => if i < 1 then none else some []) 0 0 "ab" "modern" 0).state.cache
       (cache_key_content "ab" "modern") = none) :=
  ⟨(C2_retry_backoff 1 [] 2).1 (by decide),
   (C2_retry_backoff 1 [] 0).2.1 (by decide),
   (C2_retry_backoff 1 [] 0).2.2 (by decide) _ 0 0 "ab" "modern" (by decide) (by decide)⟩

/-- C3: a lookup on a state within its size bound leaves the cache
within the bound (for max_cache_size at least 1); and the percentage
trim used at capacity removes exactly max(1, floor(maxEntries * 0.1))
entries — under unique keys — and only oldest-by-timestamp ones: every
evicted entry's timestamp is at most every surviving entry's. -/
theorem C3_size_bound (st : APIState) (tp : Nat → Option (List Token))
    (now elapsed : Int) (text genre : String) (mr : Nat) :
    (1 ≤ st.max_cache_size → st.cache.length ≤ st.max_cache_size →
      (get_nikud st tp now elapsed text genre mr).state.cache.length ≤ st.max_cache_size) ∧
    ((st.cache.map Prod.fst).Nodup →
      (trim_cache_by_percentage st 1 10).cache.length
        = st.cache.length - max 1 (st.max_cache_size * 1 / 10)) ∧
    ((st.cache.map Prod.fst).Nodup →
      ∀ p ∈ st.cache, p.1 ∈ trim_percentage_oldest_keys st 1 10 →
      ∀ q ∈ (trim_cache_by_percentage st 1 10).cache, p.2.timestamp ≤ q.2.timestamp) := by
  refine ⟨?_, ?_, ?_⟩
  · intro hmax hlen
    by_cases hg : genre ∈ GENRES
    · cases hl : lookupKey st.cache (cache_key_content text genre) with
      | some e =>
        by_cases hv : is_cache_valid st e.timestamp now = true
        · rw [get_nikud_hit st tp now elapsed text genre mr e hg hl hv]
          exact hlen
        · rw [get_nikud_expired st tp now elapsed text genre mr e hg hl (Bool.eq_false_iff.mpr hv)]
          exact get_nikud_miss_length _ tp now elapsed _ mr hmax
            (le_trans (List.length_filter_le _ _) hlen)
      | none =>
        rw [get_nikud_absent st tp now elapsed text genre mr hg hl]
        exact get_nikud_miss_length st tp now elapsed _ mr hmax hlen
    · rw [get_nikud_invalid st tp now elapsed text genre mr hg]
      exact hlen
  · intro hnd
    rw [trim_cache_by_percentage_cache]
    exact filter_not_taken_keys_length st.cache _ hnd
  · intro hnd p hp hpk q hq
    have hqc : q ∈ st.cache ∧ q.1 ∉ trim_percentage_oldest_keys st 1 10 := by
      rw [trim_cache_by_percentage_cache] at hq
      have hm := List.mem_filter.mp hq
      refine ⟨hm.1, ?_⟩
      simpa using hm.2
    have hptake := mem_take_of_removed st.cache (max 1 (st.max_cache_size * 1 / 10)) hnd p hp hpk
    have hqdrop := mem_drop_of_kept st.cache (max 1 (st.max_cache_size * 1 / 10)) q hqc.1 hqc.2
    exact take_le_drop_timestamps st.cache _ p hptake q hqdrop

/-- Witness for C3 on a two-entry cache at capacity 2: the bound holds
after a lookup, the trim removes exactly one entry, and the evicted
entry is oldest. -/
theorem C3_size_bound_witness :
    (get_nikud
        { cache := [("a", { value := { data := "x", response_time := 0 }, timestamp := 1 }),
                    ("b", { value := { data := "y", response_time := 0 }, timestamp := 2 })],
          enable_cache_timeout := false, cache_duration := 3600, max_cache_size := 2 }
        (fun _ => some []) 5 0 "ab" "modern" 1).state.cache.length ≤ 2 ∧
    (trim_cache_by_percentage
        { cache := [("a", { value := { data := "x", response_time := 0 }, timestamp := 1 }),
                    ("b", { value := { data := "y", response_time := 0 }, timestamp := 2 })],
          enable_cache_timeout := false, cache_duration := 3600, max_cache_size := 2 }
        1 10).cache.length = 2 - max 1 (2 * 1 / 10) ∧
    ((1 : Int) ≤ 2) :=
  ⟨((C3_size_bound _ (fun _ => some []) 5 0 "ab" "modern" 1).1 (by decide) (by decide)),
   ((C3_size_bound
      { cache := [("a", { value := { data := "x", response_time := 0 }, timestamp := 1 }),
                  ("b", { value := { data := "y", response_time := 0 }, timestamp := 2 })],
        enable_cache_timeout := false, cache_duration := 3600, max_cache_size := 2 }
      (fun _ => some []) 5 0 "ab" "modern" 1).2.1 (by decide)),
   ((C3_size_bound
      { cache := [("a", { value := { data := "x", response_time := 0 }, timestamp := 1 }),
                  ("b", { value := { data := "y", response_time := 0 }, timestamp := 2 })],
        enable_cache_timeout := false, cache_duration := 3600, max_cache_size := 2 }
      (fun _ => some []) 5 0 "ab" "modern" 1).2.2 (by decide)
      ("a", { value := { data := "x", response_time := 0 }, timestamp := 1 }) (by decide) (by decide)
      ("b", { value := { data := "y", response_time := 0 }, timestamp := 2 }) (by decide))⟩

/-- C5: update_config leaves every omitted field at its previous value;
and a supplied max_cache_size smaller than both the previous maximum
and the current store size immediately trims the store (before the call
returns) to exactly that many entries, keeping the most recently
inserted ones (here: with unique keys and non-decreasing insertion
timestamps, the surviving entries are exactly the final segment of the
insertion order). -/
theorem C5_update_config (st : APIState) (now : Int) (ect : Option Bool)
    (cd : Option Int) (mcs : Option Nat) (m : Nat) :
    ((ect = none →
        (update_config st now ect cd mcs).enable_cache_timeout = st.enable_cache_timeout) ∧
     (cd = none → (update_config st now ect cd mcs).cache_duration = st.cache_duration) ∧
     (mcs = none → (update_config st now ect cd mcs).max_cache_size = st.max_cache_size)) ∧
    ((st.cache.map Prod.fst).Nodup →
     st.cache.Pairwise (fun a b => a.2.timestamp ≤ b.2.timestamp) →
     m < st.max_cache_size → m < st.cache.length →
     (update_config st now none none (some m)).cache = st.cache.drop (st.cache.length - m) ∧
     (update_config st now none none (some m)).cache.length = m) := by
  constructor
  · refine ⟨?_, ?_, ?_⟩
    · rintro rfl
      calc (update_config st now none cd mcs).enable_cache_timeout
          = (update_config_duration_step st now cd).enable_cache_timeout :=
            (update_config_size_step_fields _ mcs).1
        _ = st.enable_cache_timeout := (update_config_duration_step_fields st now cd).1
    · rintro rfl
      calc (update_config st now ect none mcs).cache_duration
          = (update_config_timeout_step st now ect).cache_duration :=
            (update_config_size_step_fields _ mcs).2
        _ = st.cache_duration := (update_config_timeout_step_fields st now ect).1
    · rintro rfl
      calc (update_config st now ect cd none).max_cache_size
          = (update_config_timeout_step st now ect).max_cache_size :=
            (update_config_duration_step_fields _ now cd).2
        _ = st.max_cache_size := (update_config_timeout_step_fields st now ect).2
  · intro hnd hsorted hm hlen
    have hcache : (update_config st now none none (some m)).cache
        = st.cache.drop (st.cache.length - m) := by
      show (update_config_size_step st (some m)).cache = _
      simp only [update_config_size_step]
      rw [if_pos ⟨hm, hlen⟩]
      exact trim_cache_to_size_sorted { st with max_cache_size := m } hnd hsorted hlen
    refine ⟨hcache, ?_⟩
    rw [hcache, List.length_drop]
    omega

/-- Witness for C5: a three-entry store shrunk to max_cache_size 1
keeps exactly the most recently inserted entry; omitted fields are
preserved under partial updates. -/
theorem C5_update_config_witness :
    (update_config
        { cache := [("a", { value := { data := "x", response_time := 0 }, timestamp := 1 }),
                    ("b", { value := { data := "y", response_time := 0 }, timestamp := 2 }),
                    ("c", { value := { data := "z", response_time := 0 }, timestamp := 3 })],
          enable_cache_timeout := false, cache_duration := 3600, max_cache_size := 5 }
        0 none (some 7200) none).enable_cache_timeout = false ∧
    (update_config
        { cache := [], enable_cache_timeout := false, cache_duration := 3600, max_cache_size := 5 }
        0 (some true) none (some 9)).cache_duration = 3600 ∧
    (update_config
        { cache := [], enable_cache_timeout := false, cache_duration := 3600, max_cache_size := 5 }
        0 (some true) (some 7200) none).max_cache_size = 5 ∧
    (update_config
        { cache := [("a", { value := { data := "x", response_time := 0 }, timestamp := 1 }),
                    ("b", { value := { data := "y", response_time := 0 }, timestamp := 2 }),
                    ("c", { value := { data := "z", response_time := 0 }, timestamp := 3 })],
          enable_cache_timeout := false, cache_duration := 3600, max_cache_size := 5 }
        0 none none (some 1)).cache
      = [("c", { value := { data := "z", response_time := 0 }, timestamp := 3 })] ∧
    (update_config
        { cache := [("a", { value := { data := "x", response_time := 0 }, timestamp := 1 }),
                    ("b", { value := { data := "y", response_time := 0 }, timestamp := 2 }),
                    ("c", { value := { data := "z", response_time := 0 }, timestamp := 3 })],
          enable_cache_timeout := false, cache_duration := 3600, max_cache_size := 5 }
        0 none none (some 1)).cache.length = 1 :=
  ⟨(C5_update_config _ 0 none (some 7200) none 0).1.1 rfl,
   (C5_update_config _ 0 (some true) none (some 9) 0).1.2.1 rfl,
   (C5_update_config _ 0 (some true) (some 7200) none 0).1.2.2 rfl,
   ((C5_update_config _ 0 none none (some 1) 1).2 (by decide) (by decide) (by decide) (by decide)).1,
   ((C5_update_config _ 0 none none (some 1) 1).2 (by decide) (by decide) (by decide) (by decide)).2⟩

end Nakdan
